import Mathlib

/-
Verification of the uncertainty-guided peptide mutation scripts
(src/llm_redesign.py, src/uncertainty_guided_mutation.py, src/OLD/generate.py).

The embedding models Python values directly: strings stay strings (or lists of
characters where slicing matters), Python int becomes Int or Nat, Python float
parameters (mask_ratio, uncertainty_threshold, tensor entries) become Rat, a
torch tensor of per-position scores becomes a function from positions to Rat,
and a function that can raise ValueError returns Except String.

The external machine-learning framework (tokenizer, model forward pass,
multinomial sampling) and the external abnumber library are not part of the
repository; where a repository function consumes their output, that output is
an explicit parameter of the embedded function.
-/

namespace LlmBioInf

/-- Python int() applied to a rational value: truncation toward zero. -/
def pyInt (q : ℚ) : ℤ := if q < 0 then ⌈q⌉ else ⌊q⌋

/-- Python slice s[a:b] for nonnegative bounds a, b: both bounds clamp at the
length of the sequence, and the result is empty when a exceeds b. -/
def pySlice (s : List Char) (a b : ℕ) : List Char := (s.take b).drop a

/-- Python str.find for nonnegative haystack positions: the least index at
which the pattern occurs as a contiguous substring, if any. -/
def pyFind (s sub : List Char) : Option ℕ :=
  (List.range (s.length + 1)).find? (fun i => decide (pySlice s i (i + sub.length) = sub))

/-- MODALITY_TEMPLATES (src/llm_redesign.py lines 27-31), as a lookup from a
modality name to its template sequence. -/
def MODALITY_TEMPLATES (modality : String) : Option String :=
  if modality = "affibody" then
    some "VDNKFNKELSVAGREIVTLPNLNDPQKKAFIFSLWDDPSQSANLLAEAKKLNDAQAPK"
  else if modality = "nanobody" then
    some "AQVQLQESGGGLVQAGGSLRLSCAASERTFSTYAMGWFRQAPGREREFLAQINWSGTTTYYAESVKDRTTISRDNAKNTVYLEMNNLNADDTGIYFCAAHPQRGWGSTLGWTYWGQGTQVTVSSGGGGSGGGKPIPNPLLGLDSTRTGHHHHHH"
  else if modality = "affitin" then
    some "MRGSHHHHHHGSVKVKFVSSGEEKEVDTSKIKKVWRNLTKYGTIVQFTYDDNGKTGRGYVRELDAPKELLDMLARAEGKLN"
  else none

/-- NANOBODY_CDR_REGIONS_IMGT (src/llm_redesign.py lines 35-39), as a lookup
from a CDR name to its (start, end) inclusive 0-indexed residue range. -/
def NANOBODY_CDR_REGIONS_IMGT (name : String) : Option (ℕ × ℕ) :=
  if name = "CDR1" then some (26, 35)
  else if name = "CDR2" then some (49, 65)
  else if name = "CDR3" then some (94, 102)
  else none

/-- The configuration fields of the UncertaintyGuidedMutation dataclass of
src/llm_redesign.py (lines 64-77).  The device field and the loaded model and
tokenizer are runtime handles of the external ML framework and are omitted;
mask_ratio and uncertainty_threshold are Python floats modelled as rationals. -/
structure UncertaintyGuidedMutation where
  target_seq : String
  temp_pept_seq : String
  modality : String
  model_id : String
  model_weights : Option String
  n_seq_out : ℕ
  mask_strategy : String
  mask_ratio : ℚ
  uncertainty_threshold : ℚ
  use_template : Bool
  custom_template : Option String
  residues_to_mutate : Option (List ℤ)
  nanobody_cdr_regions : Option (List String)

namespace UncertaintyGuidedMutation

/-- The input validation at the start of post_init (src/llm_redesign.py lines
82-86).  In the source, the tokenizer and the model are loaded only after this
check (lines 88-99), so the ok branch is where loading happens: an error here
means construction fails before any model or tokenizer is loaded. -/
def post_init_check (c : UncertaintyGuidedMutation) : Except String Unit :=
  if c.temp_pept_seq = "" ∧ c.use_template = false then
    .error "Either provide temp_pept_seq or set use_template=True. Cannot proceed without a peptide sequence."
  else .ok ()

/-- get_template_sequence (src/llm_redesign.py lines 119-135). -/
def get_template_sequence (c : UncertaintyGuidedMutation) : Except String String :=
  match c.custom_template with
  | some t => .ok t
  | none =>
    match MODALITY_TEMPLATES c.modality with
    | some t => .ok t
    | none => .error "Unknown modality. Choose from affibody, nanobody, affitin or set custom_template."

/-- get_peptide_sequence (src/llm_redesign.py lines 137-158). -/
def get_peptide_sequence (c : UncertaintyGuidedMutation) : Except String String :=
  if c.use_template = true then c.get_template_sequence
  else if c.temp_pept_seq = "" then
    .error "No peptide sequence available. Either provide temp_pept_seq or set use_template=True."
  else .ok c.temp_pept_seq

end UncertaintyGuidedMutation

namespace UncertaintyGuidedMutation

/-- The gathering loop of the method get_cdr_residues_fallback
(src/llm_redesign.py lines 249-257): walk the requested CDR names in order,
raise ValueError at a name absent from NANOBODY_CDR_REGIONS_IMGT, and extend
the accumulator with the inclusive index range of each known name.  The list
of requested names (the field nanobody_cdr_regions, already known to be
non-None at every call site) is passed as the argument. -/
def gather_cdr_ranges : List String → Except String (List ℕ)
  | [] => .ok []
  | name :: rest =>
    match NANOBODY_CDR_REGIONS_IMGT name with
    | none => .error "Unknown CDR region. Choose from CDR1, CDR2, CDR3"
    | some se =>
      match gather_cdr_ranges rest with
      | .error e => .error e
      | .ok tail => .ok (List.range' se.1 (se.2 + 1 - se.1) ++ tail)

/-- get_cdr_residues_fallback (src/llm_redesign.py lines 240-259): gather the
ranges of the requested CDR names, then sorted(list(set(...))), which is the
ascending sort of the duplicate-free list. -/
def get_cdr_residues_fallback (regions : List String) : Except String (List ℕ) :=
  match gather_cdr_ranges regions with
  | .error e => .error e
  | .ok l => .ok (List.insertionSort (· ≤ ·) l.dedup)

/-- get_nanobody_cdr_residues (src/llm_redesign.py lines 160-195) on the
HAS_ABNUMBER = false build (the abnumber library is absent): validate the
modality, require nanobody_cdr_regions, compute the peptide sequence (which
can raise, and whose value the fallback does not use), then use the hardcoded
fallback positions. -/
def get_nanobody_cdr_residues (c : UncertaintyGuidedMutation) : Except String (List ℕ) :=
  if c.modality ≠ "nanobody" then
    .error "CDR identification only supported for nanobody modality"
  else
    match c.nanobody_cdr_regions with
    | none => .error "nanobody_cdr_regions must be specified for CDR-based mutation."
    | some regions =>
      match c.get_peptide_sequence with
      | .error e => .error e
      | .ok _peptide_seq => get_cdr_residues_fallback regions

end UncertaintyGuidedMutation

/-- identify_cdrs_abnumber (src/llm_redesign.py lines 284-311) in its
non-raising case: the three CDR sequences reported by the external abnumber
Chain are parameters; an entry is emitted for a CDR whose sequence is
non-empty and occurs in the input (str.find not returning -1), recording the
find position, the inclusive end position and the CDR sequence. -/
def identify_cdrs_abnumber (nanobody_seq cdr1_seq cdr2_seq cdr3_seq : List Char) :
    List (String × ℕ × ℕ × List Char) :=
  [("CDR1", cdr1_seq), ("CDR2", cdr2_seq), ("CDR3", cdr3_seq)].filterMap
    (fun p =>
      if p.2 = [] then none
      else
        match pyFind nanobody_seq p.2 with
        | some start_idx => some (p.1, start_idx, start_idx + p.2.length - 1, p.2)
        | none => none)

/-- identify_cdrs_fallback (src/llm_redesign.py lines 318-341): slice the
hardcoded IMGT ranges out of the sequence; when the range end is past the end
of the sequence, clamp it to the last index (which is -1 for the empty
sequence, hence the end field is an integer). -/
def identify_cdrs_fallback (nanobody_seq : List Char) : List (String × ℕ × ℤ × List Char) :=
  [("CDR1", (26, 35)), ("CDR2", (49, 65)), ("CDR3", (94, 102))].map
    (fun e =>
      if e.2.2 < nanobody_seq.length then
        (e.1, e.2.1, (e.2.2 : ℤ), pySlice nanobody_seq e.2.1 (e.2.2 + 1))
      else
        (e.1, e.2.1, min (e.2.2 : ℤ) ((nanobody_seq.length : ℤ) - 1),
          pySlice nanobody_seq e.2.1 ((min (e.2.2 : ℤ) ((nanobody_seq.length : ℤ) - 1)) + 1).toNat))

/-- The descending stable ordering of the value indices used by the topk
embedding: indices 0..len-1 sorted so that higher values come first. -/
def topk_order (vals : List ℚ) : List ℕ :=
  List.insertionSort (fun i j => vals.getD j 0 ≤ vals.getD i 0) (List.range vals.length)

/-- torch.topk over a gathered value list: the indices (into the list) of the
k largest values, in descending value order.  The torch documentation leaves
the order among equal values unspecified; the embedding fixes the stable
descending sort, one legitimate realization, and every property proved below
is insensitive to that choice. -/
def topk_idx (vals : List ℚ) (k : ℕ) : List ℕ :=
  (topk_order vals).take k

/-- convert_residue_indices_to_token_indices (src/llm_redesign.py lines
343-361): shift each 0-indexed peptide residue index by the token index where
the peptide starts. -/
def convert_residue_indices_to_token_indices (residue_indices : List ℤ)
    (peptide_start_idx : ℤ) : List ℤ :=
  residue_indices.map (fun idx => peptide_start_idx + idx)

/-- select_positions_to_mask of src/uncertainty_guided_mutation.py (lines
126-175), with the dataclass fields it reads (mask_strategy, mask_ratio,
uncertainty_threshold) passed as arguments.  The same statements appear
verbatim as the uncertainty-based part (lines 448-479) of
select_positions_to_mask of src/llm_redesign.py, which falls through to this
code when neither of its priority branches applies.  The uncertainty tensor
is a function from token positions to scores and mask_indices is the list of
non-special token positions. -/
def select_by_uncertainty (mask_strategy : String) (mask_ratio uncertainty_threshold : ℚ)
    (uncertainty : ℤ → ℚ) (mask_indices : List ℤ) (peptide_start_idx : Option ℤ) :
    Except String (List ℤ) :=
  let peptide_mask_indices :=
    match peptide_start_idx with
    | some p => mask_indices.filter (fun idx => p ≤ idx)
    | none => mask_indices
  if peptide_mask_indices = [] then .ok []
  else if mask_strategy = "top_k" then
    let n_mask : ℤ := max 1 (pyInt ((peptide_mask_indices.length : ℚ) * mask_ratio))
    let k : ℕ := (min n_mask (peptide_mask_indices.length : ℤ)).toNat
    let vals := peptide_mask_indices.map uncertainty
    .ok ((topk_idx vals k).map (fun i => peptide_mask_indices.getD i 0))
  else if mask_strategy = "threshold" then
    .ok (peptide_mask_indices.filter (fun idx => uncertainty_threshold < uncertainty idx))
  else if mask_strategy = "entropy" then
    .ok [peptide_mask_indices.getD 0 0]
  else .error "Unknown mask_strategy"

namespace UncertaintyGuidedMutation

/-- select_positions_to_mask (src/llm_redesign.py lines 411-479): priority 1
uses the CDR regions when the modality is nanobody, priority 2 uses the
custom residue list, and otherwise the code falls through to the
uncertainty-based selection shared with src/uncertainty_guided_mutation.py. -/
def select_positions_to_mask (c : UncertaintyGuidedMutation)
    (uncertainty : ℤ → ℚ) (mask_indices : List ℤ) (peptide_start_idx : Option ℤ) :
    Except String (List ℤ) :=
  if c.nanobody_cdr_regions ≠ none ∧ c.modality = "nanobody" then
    match peptide_start_idx with
    | none => .error "peptide_start_idx required when using nanobody_cdr_regions"
    | some p =>
      match c.get_nanobody_cdr_residues with
      | .error e => .error e
      | .ok cdr_residues =>
        .ok (convert_residue_indices_to_token_indices
          (cdr_residues.map (fun (r : ℕ) => (r : ℤ))) p)
  else
    match c.residues_to_mutate with
    | some rs =>
      match peptide_start_idx with
      | none => .error "peptide_start_idx required when using residues_to_mutate"
      | some p => .ok (convert_residue_indices_to_token_indices rs p)
    | none =>
      select_by_uncertainty c.mask_strategy c.mask_ratio c.uncertainty_threshold
        uncertainty mask_indices peptide_start_idx

end UncertaintyGuidedMutation

/-- create_masked_sequence (src/llm_redesign.py lines 481-506; identical text
at src/uncertainty_guided_mutation.py lines 177-202), restricted to the token
id list it rewrites: between the tokenizer encode and decode calls (both
external), the loop overwrites each listed position of the token id list with
the mask token id.  The positions are Python ints; the claims below only
exercise nonnegative in-range positions, where Python list assignment is
List.set at the toNat of the position. -/
def create_masked_sequence (input_ids : List ℤ) (mask_token_id : ℤ)
    (positions_to_mask : List ℤ) : List ℤ :=
  positions_to_mask.foldl (fun ids pos => ids.set pos.toNat mask_token_id) input_ids

/-- One iteration of the generation loop of generate_mutations
(src/llm_redesign.py lines 528-543; identical text at
src/uncertainty_guided_mutation.py lines 224-239; the same loop is
Generate.generate of src/OLD/generate.py lines 107-124).  The external pieces
are parameters: model gives the logits row of each position for a given token
id list, and sample abstracts torch.multinomial over torch.softmax of a
logits row, with the randomness indexed by position.  Mirroring the source,
the logits are computed once from input_ids before the inner loop; the first
component is sampled_ids after the loop and the second component records the
logits row used at each masked position, in loop order. -/
def generate_one_sequence (model : List ℤ → ℕ → List ℚ) (input_ids : List ℤ)
    (mask_positions : List ℕ) (sample : ℕ → List ℚ → ℤ) : List ℤ × List (List ℚ) :=
  let logits := model input_ids
  mask_positions.foldl
    (fun acc pos => (acc.1.set pos (sample pos (logits pos)), acc.2 ++ [logits pos]))
    (input_ids, [])

/-- Modelled from the spec: the spec calls the component an autoregressive
re-sampler, meaning the model output distribution used at a later masked
position is conditioned on the tokens already sampled at the previously
filled masked positions of the same sequence.  This reference implementation
recomputes the logits from the partially filled token id list before every
draw; the source code of generate_mutations is missing this recomputation. -/
def generate_one_sequence_autoregressive (model : List ℤ → ℕ → List ℚ) (input_ids : List ℤ)
    (mask_positions : List ℕ) (sample : ℕ → List ℚ → ℤ) : List ℤ × List (List ℚ) :=
  mask_positions.foldl
    (fun acc pos => (acc.1.set pos (sample pos (model acc.1 pos)), acc.2 ++ [model acc.1 pos]))
    (input_ids, [])

/-- A concrete one-row model whose logits depend on the token at position 0
of its input, used to instantiate the generation loop at a concrete input. -/
def toy_model : List ℤ → ℕ → List ℚ := fun ids _pos => [((ids.getD 0 0 : ℤ) : ℚ)]

/-- A concrete configuration with the top_k strategy, no custom residue list
and no CDR regions, used to instantiate theorems at a concrete input. -/
def cfg_topk : UncertaintyGuidedMutation :=
  ⟨"T", "PEP", "custom", "m", none, 5, "top_k", 3/10, 1/2, false, none, none, none⟩

/-- A concrete configuration with the threshold strategy, used to instantiate
theorems at a concrete input. -/
def cfg_thresh : UncertaintyGuidedMutation :=
  ⟨"T", "PEP", "custom", "m", none, 5, "threshold", 3/10, 1/2, false, none, none, none⟩

/-- A concrete configuration with the entropy strategy, used to instantiate
theorems at a concrete input. -/
def cfg_entropy : UncertaintyGuidedMutation :=
  ⟨"T", "PEP", "custom", "m", none, 5, "entropy", 3/10, 1/2, false, none, none, none⟩

/-- A concrete configuration with a custom residue list, used to instantiate
theorems at a concrete input. -/
def cfg_fixed : UncertaintyGuidedMutation :=
  ⟨"T", "PEP", "custom", "m", none, 5, "top_k", 3/10, 1/2, false, none,
    some [0, 2], none⟩

/-- A concrete configuration requesting the CDR1 region of a nanobody, used
to instantiate theorems at a concrete input. -/
def cfg_cdr_ok : UncertaintyGuidedMutation :=
  ⟨"T", "PEP", "nanobody", "m", none, 5, "top_k", 3/10, 1/2, false, none, none,
    some ["CDR1"]⟩

/-- A concrete configuration requesting an unknown CDR region name, used to
instantiate theorems at a concrete input. -/
def cfg_cdr_bad : UncertaintyGuidedMutation :=
  ⟨"T", "PEP", "nanobody", "m", none, 5, "top_k", 3/10, 1/2, false, none, none,
    some ["CDRX"]⟩

/-- A Python slice equals the slice of the same start whose stop is the start
plus the length of the slice. -/
theorem pySlice_self_length (s : List Char) (a b : ℕ) :
    pySlice s a (a + (pySlice s a b).length) = pySlice s a b := by
  unfold pySlice
  rcases le_or_lt a (min b s.length) with h | h
  · have hlen : ((s.take b).drop a).length = min b s.length - a := by
      simp [List.length_drop, List.length_take]
    rw [hlen, Nat.add_sub_cancel' h]
    congr 1
    rw [List.take_eq_take]
    simp [min_assoc]
  · have hlen : ((s.take b).drop a).length = 0 := by
      simp only [List.length_drop, List.length_take]
      omega
    rw [List.length_eq_zero.mp hlen]
    apply List.length_eq_zero.mp
    simp only [List.length_nil, Nat.add_zero, List.length_drop, List.length_take]
    omega

/-- If str.find locates the pattern at index i, then the slice of the input at
i of the pattern length is the pattern. -/
theorem pyFind_spec (s sub : List Char) (i : ℕ) (h : pyFind s sub = some i) :
    pySlice s i (i + sub.length) = sub := by
  unfold pyFind at h
  have h2 := List.find?_some h
  exact of_decide_eq_true h2

/-- C6: every entry (start, end, seq) produced by the CDR identification is a
located substring: seq occurs in the input sequence exactly at start, i.e.
seq equals the slice of the input from start of length len(seq).  This covers
the abnumber path (which locates the CDR with find, for arbitrary CDR
sequences reported by the library) and the hardcoded fallback path including
its short-sequence branch. -/
theorem C6_cdr_located_substrings (nanobody_seq cdr1_seq cdr2_seq cdr3_seq : List Char) :
    (∀ e ∈ identify_cdrs_abnumber nanobody_seq cdr1_seq cdr2_seq cdr3_seq,
      e.2.2.2 = pySlice nanobody_seq e.2.1 (e.2.1 + e.2.2.2.length)) ∧
    (∀ e ∈ identify_cdrs_fallback nanobody_seq,
      e.2.2.2 = pySlice nanobody_seq e.2.1 (e.2.1 + e.2.2.2.length)) := by
  constructor
  · intro e he
    rcases List.mem_filterMap.mp he with ⟨p, _, hfp⟩
    by_cases hp : p.2 = []
    · rw [if_pos hp] at hfp; cases hfp
    · rw [if_neg hp] at hfp
      cases hf : pyFind nanobody_seq p.2 with
      | none => rw [hf] at hfp; cases hfp
      | some i =>
        rw [hf] at hfp
        injection hfp with hfp
        subst hfp
        exact (pyFind_spec nanobody_seq p.2 i hf).symm
  · intro e he
    rcases List.mem_map.mp he with ⟨p, _, hfp⟩
    by_cases hp : p.2.2 < nanobody_seq.length
    · rw [if_pos hp] at hfp
      subst hfp
      exact (pySlice_self_length nanobody_seq p.2.1 (p.2.2 + 1)).symm
    · rw [if_neg hp] at hfp
      subst hfp
      exact (pySlice_self_length nanobody_seq p.2.1 _).symm

/-- Closed instantiation of C6: a concrete abnumber-path entry and a concrete
short-sequence fallback entry are located substrings. -/
theorem C6_cdr_located_substrings_witness :
    ((("CDR1", 1, 1, ['B']) : String × ℕ × ℕ × List Char).2.2.2 =
      pySlice ['A', 'B', 'C'] 1 (1 + (['B'] : List Char).length)) ∧
    ((("CDR1", 26, 2, ([] : List Char)) : String × ℕ × ℤ × List Char).2.2.2 =
      pySlice ['A', 'B', 'C'] 26 (26 + ([] : List Char).length)) := by
  constructor
  · exact (C6_cdr_located_substrings ['A', 'B', 'C'] ['B'] [] []).1 _ (by decide)
  · exact (C6_cdr_located_substrings ['A', 'B', 'C'] ['B'] [] []).2 _ (by decide)

/-- Membership in the gathered ranges of the fallback loop is membership in
the inclusive hardcoded range of some requested CDR name. -/
theorem gather_cdr_ranges_mem (names : List String) (l : List ℕ)
    (h : LlmBioInf.UncertaintyGuidedMutation.gather_cdr_ranges names = .ok l) (x : ℕ) :
    x ∈ l ↔ (("CDR1" ∈ names ∧ 26 ≤ x ∧ x ≤ 35) ∨
             ("CDR2" ∈ names ∧ 49 ≤ x ∧ x ≤ 65) ∨
             ("CDR3" ∈ names ∧ 94 ≤ x ∧ x ≤ 102)) := by
  induction names generalizing l with
  | nil =>
    unfold UncertaintyGuidedMutation.gather_cdr_ranges at h
    injection h with h
    subst h
    simp
  | cons name rest ih =>
    unfold UncertaintyGuidedMutation.gather_cdr_ranges at h
    by_cases h1 : name = "CDR1"
    · subst h1
      rw [show NANOBODY_CDR_REGIONS_IMGT "CDR1" = some (26, 35) from rfl] at h
      cases hg : UncertaintyGuidedMutation.gather_cdr_ranges rest with
      | error e => rw [hg] at h; cases h
      | ok tail =>
        rw [hg] at h
        injection h with h
        subst h
        have hb : ∀ y : ℕ, y ∈ List.range' 26 (35 + 1 - 26) ↔ (26 ≤ y ∧ y ≤ 35) := by
          intro y; rw [List.mem_range'_1]; omega
        simp only [List.mem_append, hb, ih tail hg, List.mem_cons]
        simp only [show (("CDR1" : String) = "CDR1") = True by simp,
          show (("CDR2" : String) = "CDR1") = False by simp,
          show (("CDR3" : String) = "CDR1") = False by simp, true_or, false_or, true_and]
        tauto
    · by_cases h2 : name = "CDR2"
      · subst h2
        rw [show NANOBODY_CDR_REGIONS_IMGT "CDR2" = some (49, 65) from rfl] at h
        cases hg : UncertaintyGuidedMutation.gather_cdr_ranges rest with
        | error e => rw [hg] at h; cases h
        | ok tail =>
          rw [hg] at h
          injection h with h
          subst h
          have hb : ∀ y : ℕ, y ∈ List.range' 49 (65 + 1 - 49) ↔ (49 ≤ y ∧ y ≤ 65) := by
            intro y; rw [List.mem_range'_1]; omega
          simp only [List.mem_append, hb, ih tail hg, List.mem_cons]
          simp only [show (("CDR1" : String) = "CDR2") = False by simp,
            show (("CDR2" : String) = "CDR2") = True by simp,
            show (("CDR3" : String) = "CDR2") = False by simp, true_or, false_or, true_and]
          tauto
      · by_cases h3 : name = "CDR3"
        · subst h3
          rw [show NANOBODY_CDR_REGIONS_IMGT "CDR3" = some (94, 102) from rfl] at h
          cases hg : UncertaintyGuidedMutation.gather_cdr_ranges rest with
          | error e => rw [hg] at h; cases h
          | ok tail =>
            rw [hg] at h
            injection h with h
            subst h
            have hb : ∀ y : ℕ, y ∈ List.range' 94 (102 + 1 - 94) ↔ (94 ≤ y ∧ y ≤ 102) := by
              intro y; rw [List.mem_range'_1]; omega
            simp only [List.mem_append, hb, ih tail hg, List.mem_cons]
            simp only [show (("CDR1" : String) = "CDR3") = False by simp,
              show (("CDR2" : String) = "CDR3") = False by simp,
              show (("CDR3" : String) = "CDR3") = True by simp, true_or, false_or, true_and]
            tauto
        · rw [show NANOBODY_CDR_REGIONS_IMGT name = none by
            simp [NANOBODY_CDR_REGIONS_IMGT, h1, h2, h3]] at h
          cases h

/-- A request list containing a name outside the hardcoded table makes the
gathering loop raise. -/
theorem gather_cdr_ranges_invalid (names : List String)
    (h : ∃ nm ∈ names, NANOBODY_CDR_REGIONS_IMGT nm = none) :
    ∃ msg, LlmBioInf.UncertaintyGuidedMutation.gather_cdr_ranges names = .error msg := by
  induction names with
  | nil => rcases h with ⟨nm, hmem, _⟩; cases hmem
  | cons name rest ih =>
    rcases h with ⟨nm, hmem, hnone⟩
    unfold UncertaintyGuidedMutation.gather_cdr_ranges
    cases hl : NANOBODY_CDR_REGIONS_IMGT name with
    | none => exact ⟨_, rfl⟩
    | some se =>
      have hrest : ∃ nm ∈ rest, NANOBODY_CDR_REGIONS_IMGT nm = none := by
        rcases List.mem_cons.mp hmem with rfl | hr
        · rw [hl] at hnone; cases hnone
        · exact ⟨nm, hr, hnone⟩
      rcases ih hrest with ⟨msg, hmsg⟩
      rw [hmsg]
      exact ⟨msg, rfl⟩

/-- A request list of names all in the hardcoded table makes the gathering
loop succeed. -/
theorem gather_cdr_ranges_valid (names : List String)
    (h : ∀ nm ∈ names, (NANOBODY_CDR_REGIONS_IMGT nm).isSome = true) :
    ∃ l, LlmBioInf.UncertaintyGuidedMutation.gather_cdr_ranges names = .ok l := by
  induction names with
  | nil => exact ⟨[], rfl⟩
  | cons name rest ih =>
    unfold UncertaintyGuidedMutation.gather_cdr_ranges
    cases hl : NANOBODY_CDR_REGIONS_IMGT name with
    | none =>
      have hmem := h name (List.mem_cons_self _ _)
      rw [hl] at hmem
      cases hmem
    | some se =>
      rcases ih (fun nm hm => h nm (List.mem_cons_of_mem _ hm)) with ⟨tail, htail⟩
      rw [htail]
      exact ⟨_, rfl⟩

/-- C5: with the abnumber library unavailable, get_nanobody_cdr_residues
returns the sorted, duplicate-free union of the inclusive hardcoded ranges
(CDR1 26..35, CDR2 49..65, CDR3 94..102) for exactly the requested CDR names,
and raises ValueError when a requested name is not CDR1, CDR2 or CDR3. -/
theorem C5_cdr_fallback_union (c : UncertaintyGuidedMutation) (names : List String)
    (hmod : c.modality = "nanobody")
    (hreg : c.nanobody_cdr_regions = some names)
    (hpep : ∃ s, c.get_peptide_sequence = .ok s) :
    ((∀ nm ∈ names, nm = "CDR1" ∨ nm = "CDR2" ∨ nm = "CDR3") →
      ∃ res, c.get_nanobody_cdr_residues = .ok res ∧
        List.Sorted (· < ·) res ∧
        (∀ x : ℕ, x ∈ res ↔
          (("CDR1" ∈ names ∧ 26 ≤ x ∧ x ≤ 35) ∨
           ("CDR2" ∈ names ∧ 49 ≤ x ∧ x ≤ 65) ∨
           ("CDR3" ∈ names ∧ 94 ≤ x ∧ x ≤ 102)))) ∧
    ((∃ nm ∈ names, ¬ (nm = "CDR1" ∨ nm = "CDR2" ∨ nm = "CDR3")) →
      ∃ msg, c.get_nanobody_cdr_residues = .error msg) := by
  rcases hpep with ⟨s, hs⟩
  have hred : c.get_nanobody_cdr_residues =
      UncertaintyGuidedMutation.get_cdr_residues_fallback names := by
    unfold UncertaintyGuidedMutation.get_nanobody_cdr_residues
    rw [hmod, hreg, hs]
    simp
  constructor
  · intro hvalid
    have hsome : ∀ nm ∈ names, (NANOBODY_CDR_REGIONS_IMGT nm).isSome = true := by
      intro nm hm
      rcases hvalid nm hm with rfl | rfl | rfl <;> decide
    rcases gather_cdr_ranges_valid names hsome with ⟨l, hl⟩
    refine ⟨List.insertionSort (· ≤ ·) l.dedup, ?_, ?_, ?_⟩
    · rw [hred]
      unfold UncertaintyGuidedMutation.get_cdr_residues_fallback
      rw [hl]
    · have hsort : List.Sorted (· ≤ ·) (List.insertionSort (· ≤ ·) l.dedup) :=
        List.sorted_insertionSort _ _
      have hnd : (List.insertionSort (· ≤ ·) l.dedup).Nodup :=
        (List.perm_insertionSort (· ≤ ·) l.dedup).symm.nodup (List.nodup_dedup l)
      exact hsort.lt_of_le hnd
    · intro x
      rw [(List.perm_insertionSort (· ≤ ·) l.dedup).mem_iff, List.mem_dedup]
      exact gather_cdr_ranges_mem names l hl x
  · intro hinv
    have hnone : ∃ nm ∈ names, NANOBODY_CDR_REGIONS_IMGT nm = none := by
      rcases hinv with ⟨nm, hm, hn⟩
      push_neg at hn
      exact ⟨nm, hm, by simp [NANOBODY_CDR_REGIONS_IMGT, hn.1, hn.2.1, hn.2.2]⟩
    rcases gather_cdr_ranges_invalid names hnone with ⟨msg, hmsg⟩
    rw [hred]
    unfold UncertaintyGuidedMutation.get_cdr_residues_fallback
    rw [hmsg]
    exact ⟨msg, rfl⟩

/-- Closed instantiation of C5: requesting CDR1 alone on a nanobody config
yields the characterized sorted union, and requesting an unknown name errors. -/
theorem C5_cdr_fallback_union_witness :
    (∃ res, cfg_cdr_ok.get_nanobody_cdr_residues = .ok res ∧
      List.Sorted (· < ·) res ∧
      (∀ x : ℕ, x ∈ res ↔
        (("CDR1" ∈ ["CDR1"] ∧ 26 ≤ x ∧ x ≤ 35) ∨
         ("CDR2" ∈ ["CDR1"] ∧ 49 ≤ x ∧ x ≤ 65) ∨
         ("CDR3" ∈ ["CDR1"] ∧ 94 ≤ x ∧ x ≤ 102)))) ∧
    (∃ msg, cfg_cdr_bad.get_nanobody_cdr_residues = .error msg) := by
  constructor
  · exact (C5_cdr_fallback_union cfg_cdr_ok ["CDR1"] rfl rfl ⟨"PEP", rfl⟩).1 (by decide)
  · exact (C5_cdr_fallback_union cfg_cdr_bad ["CDRX"] rfl rfl ⟨"PEP", rfl⟩).2
      ⟨"CDRX", by decide, by decide⟩

/-- C7: get_template_sequence returns the fixed template string of
MODALITY_TEMPLATES when the modality is one of affibody, nanobody, affitin and
custom_template is None; it returns custom_template whenever custom_template
is not None regardless of modality; and it raises ValueError exactly when
custom_template is None and the modality is none of those three names. -/
theorem C7_modality_templates (c : UncertaintyGuidedMutation) :
    (∀ t, c.custom_template = some t → c.get_template_sequence = .ok t) ∧
    (c.custom_template = none →
      (∀ t, MODALITY_TEMPLATES c.modality = some t → c.get_template_sequence = .ok t) ∧
      (MODALITY_TEMPLATES c.modality = none →
        ∃ msg, c.get_template_sequence = .error msg)) ∧
    (∀ m, (MODALITY_TEMPLATES m).isSome = true ↔
      (m = "affibody" ∨ m = "nanobody" ∨ m = "affitin")) := by
  refine ⟨?_, ?_, ?_⟩
  · intro t ht
    simp [UncertaintyGuidedMutation.get_template_sequence, ht]
  · intro hc
    constructor
    · intro t ht
      simp [UncertaintyGuidedMutation.get_template_sequence, hc, ht]
    · intro ht
      exact ⟨"Unknown modality. Choose from affibody, nanobody, affitin or set custom_template.",
        by simp [UncertaintyGuidedMutation.get_template_sequence, hc, ht]⟩
  · intro m
    unfold MODALITY_TEMPLATES
    by_cases h1 : m = "affibody" <;> by_cases h2 : m = "nanobody" <;>
      by_cases h3 : m = "affitin" <;> simp [h1, h2, h3]

/-- Closed instantiation of C7 at concrete configurations: a config with a
custom template returns it, the affibody modality returns the affibody
template, and an unknown modality without a custom template errors. -/
theorem C7_modality_templates_witness :
    (UncertaintyGuidedMutation.get_template_sequence
      ⟨"T", "P", "nanobody", "m", none, 5, "top_k", 3/10, 1/2, false,
        some "XYZ", none, none⟩ = .ok "XYZ") ∧
    (UncertaintyGuidedMutation.get_template_sequence
      ⟨"T", "P", "affibody", "m", none, 5, "top_k", 3/10, 1/2, false,
        none, none, none⟩ =
      .ok "VDNKFNKELSVAGREIVTLPNLNDPQKKAFIFSLWDDPSQSANLLAEAKKLNDAQAPK") ∧
    (∃ msg, UncertaintyGuidedMutation.get_template_sequence
      ⟨"T", "P", "weird", "m", none, 5, "top_k", 3/10, 1/2, false,
        none, none, none⟩ = .error msg) := by
  refine ⟨?_, ?_, ?_⟩
  · exact (C7_modality_templates _).1 "XYZ" rfl
  · exact ((C7_modality_templates _).2.1 rfl).1 _ (by decide)
  · exact ((C7_modality_templates _).2.1 rfl).2 (by decide)

/-- C8: constructing UncertaintyGuidedMutation with an empty temp_pept_seq and
use_template false fails the post-init validation (hence before loading any
model or tokenizer), and get_peptide_sequence raises under the same condition;
whenever use_template is true, get_peptide_sequence returns exactly the result
of get_template_sequence, so it never raises the missing-peptide error for an
empty temp_pept_seq. -/
theorem C8_missing_peptide_precondition (c : UncertaintyGuidedMutation) :
    (c.temp_pept_seq = "" → c.use_template = false →
      (∃ m1, c.post_init_check = .error m1) ∧
      (∃ m2, c.get_peptide_sequence = .error m2)) ∧
    (c.use_template = true →
      c.get_peptide_sequence = c.get_template_sequence ∧
      c.get_peptide_sequence ≠
        .error "No peptide sequence available. Either provide temp_pept_seq or set use_template=True.") := by
  constructor
  · intro he hu
    constructor
    · exact ⟨"Either provide temp_pept_seq or set use_template=True. Cannot proceed without a peptide sequence.",
        by simp [UncertaintyGuidedMutation.post_init_check, he, hu]⟩
    · exact ⟨"No peptide sequence available. Either provide temp_pept_seq or set use_template=True.",
        by simp [UncertaintyGuidedMutation.get_peptide_sequence, he, hu]⟩
  · intro hu
    constructor
    · simp [UncertaintyGuidedMutation.get_peptide_sequence, hu]
    · rw [UncertaintyGuidedMutation.get_peptide_sequence, if_pos hu]
      unfold UncertaintyGuidedMutation.get_template_sequence
      cases hct : c.custom_template with
      | some t => simp
      | none =>
        cases hmt : MODALITY_TEMPLATES c.modality with
        | some t => simp
        | none => simp

/-- Closed instantiation of C8: with an empty peptide and no template the
validation and get_peptide_sequence both error, and with use_template true and
an empty peptide the template is returned. -/
theorem C8_missing_peptide_precondition_witness :
    ((∃ m1, UncertaintyGuidedMutation.post_init_check
        ⟨"T", "", "custom", "m", none, 5, "top_k", 3/10, 1/2, false,
          none, none, none⟩ = .error m1) ∧
      (∃ m2, UncertaintyGuidedMutation.get_peptide_sequence
        ⟨"T", "", "custom", "m", none, 5, "top_k", 3/10, 1/2, false,
          none, none, none⟩ = .error m2)) ∧
    (UncertaintyGuidedMutation.get_peptide_sequence
        ⟨"T", "", "affitin", "m", none, 5, "top_k", 3/10, 1/2, true,
          none, none, none⟩ =
      UncertaintyGuidedMutation.get_template_sequence
        ⟨"T", "", "affitin", "m", none, 5, "top_k", 3/10, 1/2, true,
          none, none, none⟩) := by
  constructor
  · exact (C8_missing_peptide_precondition _).1 rfl rfl
  · exact ((C8_missing_peptide_precondition _).2 rfl).1

/-- The sorted index order of the topk embedding is a permutation of the list
of all value indices. -/
theorem topk_order_perm (vals : List ℚ) : (topk_order vals).Perm (List.range vals.length) :=
  List.perm_insertionSort _ _

/-- The sorted index order of the topk embedding is sorted by descending
value. -/
theorem topk_order_sorted (vals : List ℚ) :
    List.Sorted (fun i j => vals.getD j 0 ≤ vals.getD i 0) (topk_order vals) := by
  haveI : IsTotal ℕ (fun i j => vals.getD j 0 ≤ vals.getD i 0) := ⟨fun a b => le_total _ _⟩
  haveI : IsTrans ℕ (fun i j => vals.getD j 0 ≤ vals.getD i 0) :=
    ⟨fun a b c h1 h2 => le_trans h2 h1⟩
  exact List.sorted_insertionSort _ _

/-- topk over a value list picks min k len indices. -/
theorem topk_idx_length (vals : List ℚ) (k : ℕ) :
    (topk_idx vals k).length = min k vals.length := by
  unfold topk_idx
  rw [List.length_take, (topk_order_perm vals).length_eq, List.length_range]

/-- Every index picked by topk is a valid index into the value list. -/
theorem topk_idx_mem_lt (vals : List ℚ) (k : ℕ) : ∀ i ∈ topk_idx vals k, i < vals.length := by
  intro i hi
  have hmem : i ∈ topk_order vals := List.mem_of_mem_take hi
  exact List.mem_range.mp ((topk_order_perm vals).mem_iff.mp hmem)

/-- The value at an index picked by topk dominates the value at every valid
index not picked by topk. -/
theorem topk_idx_dominant (vals : List ℚ) (k : ℕ) (i : ℕ) (hi : i ∈ topk_idx vals k)
    (j : ℕ) (hj : j < vals.length) (hj2 : j ∉ topk_idx vals k) :
    vals.getD j 0 ≤ vals.getD i 0 := by
  have hjL : j ∈ topk_order vals := (topk_order_perm vals).mem_iff.mpr (List.mem_range.mpr hj)
  have hsplit : j ∈ (topk_order vals).take k ++ (topk_order vals).drop k := by
    rw [List.take_append_drop]
    exact hjL
  rcases List.mem_append.mp hsplit with h | h
  · exact absurd h hj2
  · have hrel := List.Pairwise.rel_of_mem_take_of_mem_drop (topk_order_sorted vals) hi h
    exact hrel

/-- Under max with 1, the Python int() truncation of a rational agrees with
its floor. -/
theorem max_one_pyInt (q : ℚ) : max 1 (pyInt q) = max 1 ⌊q⌋ := by
  unfold pyInt
  by_cases h : q < 0
  · rw [if_pos h]
    have h1 : ⌈q⌉ ≤ 0 := Int.ceil_le.mpr (by exact_mod_cast h.le)
    have h2 : ⌊q⌋ ≤ 0 := Int.floor_nonpos h.le
    omega
  · rw [if_neg h]

/-- Shape of the list selected by the topk branch: it has exactly k entries,
each drawn from the gathered index list, and its entries dominate the
uncertainty of every gathered index left out. -/
theorem topk_select_spec (u : ℤ → ℚ) (pm : List ℤ) (_hne : pm ≠ []) (k : ℕ)
    (hk : k ≤ pm.length) :
    ((topk_idx (pm.map u) k).map (fun i => pm.getD i 0)).length = k ∧
    (∀ a ∈ (topk_idx (pm.map u) k).map (fun i => pm.getD i 0), a ∈ pm) ∧
    (∀ a ∈ (topk_idx (pm.map u) k).map (fun i => pm.getD i 0), ∀ b ∈ pm,
      b ∉ (topk_idx (pm.map u) k).map (fun i => pm.getD i 0) → u b ≤ u a) := by
  refine ⟨?_, ?_, ?_⟩
  · rw [List.length_map, topk_idx_length, List.length_map]
    omega
  · intro a ha
    rcases List.mem_map.mp ha with ⟨i, hi, rfl⟩
    have hlt : i < (pm.map u).length := topk_idx_mem_lt _ _ i hi
    rw [List.length_map] at hlt
    rw [List.getD_eq_getElem pm 0 hlt]
    exact List.getElem_mem hlt
  · intro a ha b hb hbn
    rcases List.mem_map.mp ha with ⟨i, hi, rfl⟩
    have hilt : i < (pm.map u).length := topk_idx_mem_lt _ _ i hi
    have hilt2 : i < pm.length := by rw [List.length_map] at hilt; exact hilt
    rcases List.mem_iff_getElem.mp hb with ⟨j, hjlt, rfl⟩
    have hjn : j ∉ topk_idx (pm.map u) k := by
      intro hjmem
      exact hbn (List.mem_map.mpr ⟨j, hjmem, List.getD_eq_getElem pm 0 hjlt⟩)
    have hdom := topk_idx_dominant (pm.map u) k i hi j
      (by rw [List.length_map]; exact hjlt) hjn
    rw [List.getD_eq_getElem _ 0 (by rw [List.length_map]; exact hjlt),
      List.getD_eq_getElem _ 0 hilt, List.getElem_map, List.getElem_map] at hdom
    rw [List.getD_eq_getElem pm 0 hilt2]
    exact hdom

/-- The top_k branch of the shared uncertainty-based selection: the count of
selected positions follows the min max floor formula, and the selection picks
uncertainty-dominant gathered positions. -/
theorem select_by_uncertainty_top_k_spec (mask_ratio uncertainty_threshold : ℚ)
    (u : ℤ → ℚ) (mi : List ℤ) (p : ℤ)
    (hne : mi.filter (fun idx => p ≤ idx) ≠ []) :
    ∃ res, select_by_uncertainty "top_k" mask_ratio uncertainty_threshold u mi (some p) =
        .ok res ∧
      (res.length : ℤ) = min ((mi.filter (fun idx => p ≤ idx)).length : ℤ)
        (max 1 ⌊((mi.filter (fun idx => p ≤ idx)).length : ℚ) * mask_ratio⌋) ∧
      (∀ a ∈ res, a ∈ mi.filter (fun idx => p ≤ idx)) ∧
      (∀ a ∈ res, ∀ b ∈ mi.filter (fun idx => p ≤ idx), b ∉ res → u b ≤ u a) := by
  set pm := mi.filter (fun idx => p ≤ idx) with hpm
  have hdef : select_by_uncertainty "top_k" mask_ratio uncertainty_threshold u mi (some p) =
      if pm = [] then .ok [] else
        .ok ((topk_idx (pm.map u)
            ((min (max 1 (pyInt ((pm.length : ℚ) * mask_ratio))) (pm.length : ℤ)).toNat)).map
          (fun i => pm.getD i 0)) := rfl
  rw [hdef, if_neg hne]
  have hlen0 : 0 < pm.length := List.length_pos.mpr hne
  set k : ℕ := (min (max 1 (pyInt ((pm.length : ℚ) * mask_ratio))) (pm.length : ℤ)).toNat
    with hkdef
  have h1le : (1 : ℤ) ≤ max 1 (pyInt ((pm.length : ℚ) * mask_ratio)) := le_max_left _ _
  have hk_le : k ≤ pm.length := by omega
  obtain ⟨hL, hsub, hdom⟩ := topk_select_spec u pm hne k hk_le
  refine ⟨_, rfl, ?_, hsub, hdom⟩
  rw [hL]
  have hkz : (k : ℤ) = min (max 1 (pyInt ((pm.length : ℚ) * mask_ratio))) (pm.length : ℤ) := by
    omega
  rw [hkz, min_comm, max_one_pyInt]

/-- C1: with the top_k strategy and neither the CDR branch nor the custom
residue branch applying, select_positions_to_mask (in both source files)
returns exactly min(n, max(1, floor(n * mask_ratio))) positions, where n is
the number of peptide token indices (the mask_indices at or after
peptide_start_idx), each selected position is a peptide token index, and the
selected positions carry the highest uncertainty scores: every unselected
peptide token index has uncertainty at most that of every selected one. -/
theorem C1_top_k_remasking (c : UncertaintyGuidedMutation) (u : ℤ → ℚ)
    (mi : List ℤ) (p : ℤ)
    (hbranch : ¬ (c.nanobody_cdr_regions ≠ none ∧ c.modality = "nanobody"))
    (hres : c.residues_to_mutate = none)
    (hstrat : c.mask_strategy = "top_k")
    (hne : mi.filter (fun idx => p ≤ idx) ≠ []) :
    ∃ res, c.select_positions_to_mask u mi (some p) = .ok res ∧
      select_by_uncertainty c.mask_strategy c.mask_ratio c.uncertainty_threshold
        u mi (some p) = .ok res ∧
      (res.length : ℤ) = min ((mi.filter (fun idx => p ≤ idx)).length : ℤ)
        (max 1 ⌊((mi.filter (fun idx => p ≤ idx)).length : ℚ) * c.mask_ratio⌋) ∧
      (∀ a ∈ res, a ∈ mi.filter (fun idx => p ≤ idx)) ∧
      (∀ a ∈ res, ∀ b ∈ mi.filter (fun idx => p ≤ idx), b ∉ res → u b ≤ u a) := by
  have hfall : c.select_positions_to_mask u mi (some p) =
      select_by_uncertainty c.mask_strategy c.mask_ratio c.uncertainty_threshold
        u mi (some p) := by
    unfold UncertaintyGuidedMutation.select_positions_to_mask
    rw [if_neg hbranch, hres]
  rcases select_by_uncertainty_top_k_spec c.mask_ratio c.uncertainty_threshold u mi p hne
    with ⟨res, h1, h2, h3, h4⟩
  refine ⟨res, ?_, ?_, h2, h3, h4⟩
  · rw [hfall, hstrat]
    exact h1
  · rw [hstrat]
    exact h1

/-- Closed instantiation of C1 at a constant uncertainty, five token indices
and peptide start 2: one position is selected (floor(3 * 0.3) = 0 clamps to
1) and it dominates the unselected peptide positions. -/
theorem C1_top_k_remasking_witness :
    ∃ res, cfg_topk.select_positions_to_mask (fun _ => 0) [0, 1, 2, 3, 4] (some 2) =
        .ok res ∧
      select_by_uncertainty cfg_topk.mask_strategy cfg_topk.mask_ratio
        cfg_topk.uncertainty_threshold (fun _ => 0) [0, 1, 2, 3, 4] (some 2) = .ok res ∧
      (res.length : ℤ) =
        min ((([0, 1, 2, 3, 4] : List ℤ).filter (fun idx => (2 : ℤ) ≤ idx)).length : ℤ)
          (max 1 ⌊((([0, 1, 2, 3, 4] : List ℤ).filter
            (fun idx => (2 : ℤ) ≤ idx)).length : ℚ) * cfg_topk.mask_ratio⌋) ∧
      (∀ a ∈ res, a ∈ ([0, 1, 2, 3, 4] : List ℤ).filter (fun idx => (2 : ℤ) ≤ idx)) ∧
      (∀ a ∈ res, ∀ b ∈ ([0, 1, 2, 3, 4] : List ℤ).filter (fun idx => (2 : ℤ) ≤ idx),
        b ∉ res → (fun _ => (0 : ℚ)) b ≤ (fun _ => (0 : ℚ)) a) :=
  C1_top_k_remasking cfg_topk (fun _ => 0) [0, 1, 2, 3, 4] 2 (by decide) rfl rfl (by decide)

/-- The threshold branch of the shared uncertainty-based selection is the
filter of the peptide token indices by strict threshold exceedance. -/
theorem select_by_uncertainty_threshold_eq (mask_ratio uncertainty_threshold : ℚ)
    (u : ℤ → ℚ) (mi : List ℤ) (p : ℤ) :
    select_by_uncertainty "threshold" mask_ratio uncertainty_threshold u mi (some p) =
      .ok ((mi.filter (fun idx => p ≤ idx)).filter
        (fun idx => uncertainty_threshold < u idx)) := by
  set pm := mi.filter (fun idx => p ≤ idx) with hpm
  have hdef : select_by_uncertainty "threshold" mask_ratio uncertainty_threshold
      u mi (some p) =
      if pm = [] then .ok [] else
        .ok (pm.filter (fun idx => uncertainty_threshold < u idx)) := rfl
  rw [hdef]
  by_cases hemp : pm = []
  · rw [if_pos hemp, hemp]
    rfl
  · rw [if_neg hemp]

/-- C2: with the threshold strategy and neither the CDR branch nor the custom
residue branch applying, select_positions_to_mask (in both source files)
returns exactly the peptide token indices whose uncertainty strictly exceeds
uncertainty_threshold, as a filter of the peptide token index list (hence in
original increasing-index order when mask_indices is increasing), and every
returned position strictly exceeds the threshold (positions at or below it
are never returned). -/
theorem C2_threshold_remasking (c : UncertaintyGuidedMutation) (u : ℤ → ℚ)
    (mi : List ℤ) (p : ℤ)
    (hbranch : ¬ (c.nanobody_cdr_regions ≠ none ∧ c.modality = "nanobody"))
    (hres : c.residues_to_mutate = none)
    (hstrat : c.mask_strategy = "threshold") :
    c.select_positions_to_mask u mi (some p) =
      .ok ((mi.filter (fun idx => p ≤ idx)).filter
        (fun idx => c.uncertainty_threshold < u idx)) ∧
    select_by_uncertainty c.mask_strategy c.mask_ratio c.uncertainty_threshold
      u mi (some p) =
      .ok ((mi.filter (fun idx => p ≤ idx)).filter
        (fun idx => c.uncertainty_threshold < u idx)) ∧
    (∀ a ∈ (mi.filter (fun idx => p ≤ idx)).filter
      (fun idx => c.uncertainty_threshold < u idx), c.uncertainty_threshold < u a) ∧
    (List.Sorted (· < ·) mi →
      List.Sorted (· < ·) ((mi.filter (fun idx => p ≤ idx)).filter
        (fun idx => c.uncertainty_threshold < u idx))) := by
  have hfall : c.select_positions_to_mask u mi (some p) =
      select_by_uncertainty c.mask_strategy c.mask_ratio c.uncertainty_threshold
        u mi (some p) := by
    unfold UncertaintyGuidedMutation.select_positions_to_mask
    rw [if_neg hbranch, hres]
  have heq := select_by_uncertainty_threshold_eq c.mask_ratio c.uncertainty_threshold u mi p
  refine ⟨?_, ?_, ?_, ?_⟩
  · rw [hfall, hstrat]
    exact heq
  · rw [hstrat]
    exact heq
  · intro a ha
    have hd := List.of_mem_filter ha
    exact of_decide_eq_true hd
  · intro hsorted
    exact (hsorted.filter _).filter _

/-- Closed instantiation of C2: threshold selection on five token indices
with peptide start 1 returns the double filter, whose members all exceed the
threshold, in sorted order. -/
theorem C2_threshold_remasking_witness :
    cfg_thresh.select_positions_to_mask (fun _ => 1) [0, 1, 2] (some 1) =
      .ok ((([0, 1, 2] : List ℤ).filter (fun idx => (1 : ℤ) ≤ idx)).filter
        (fun idx => cfg_thresh.uncertainty_threshold < (fun _ => (1 : ℚ)) idx)) ∧
    List.Sorted (· < ·) ((([0, 1, 2] : List ℤ).filter (fun idx => (1 : ℤ) ≤ idx)).filter
      (fun idx => cfg_thresh.uncertainty_threshold < (fun _ => (1 : ℚ)) idx)) := by
  have h := C2_threshold_remasking cfg_thresh (fun _ => 1) [0, 1, 2] 1
    (by decide) rfl rfl
  exact ⟨h.1, h.2.2.2 (by decide)⟩

/-- C3: when residues_to_mutate is set and the CDR branch does not apply,
select_positions_to_mask returns exactly the residue list shifted by
peptide_start_idx, in the same order and length, independently of the
uncertainty values and of mask_indices; and it raises ValueError when
peptide_start_idx is None. -/
theorem C3_fixed_residue_list (c : UncertaintyGuidedMutation) (u₁ u₂ : ℤ → ℚ)
    (mi₁ mi₂ : List ℤ) (p : ℤ) (rs : List ℤ)
    (hbranch : ¬ (c.nanobody_cdr_regions ≠ none ∧ c.modality = "nanobody"))
    (hres : c.residues_to_mutate = some rs) :
    c.select_positions_to_mask u₁ mi₁ (some p) = .ok (rs.map (fun i => p + i)) ∧
    c.select_positions_to_mask u₂ mi₂ (some p) =
      c.select_positions_to_mask u₁ mi₁ (some p) ∧
    ∃ msg, c.select_positions_to_mask u₁ mi₁ none = .error msg := by
  have hdef : ∀ (u : ℤ → ℚ) (mi : List ℤ),
      c.select_positions_to_mask u mi (some p) = .ok (rs.map (fun i => p + i)) := by
    intro u mi
    unfold UncertaintyGuidedMutation.select_positions_to_mask
    rw [if_neg hbranch, hres]
    rfl
  refine ⟨hdef u₁ mi₁, ?_, ?_⟩
  · rw [hdef u₁ mi₁, hdef u₂ mi₂]
  · unfold UncertaintyGuidedMutation.select_positions_to_mask
    rw [if_neg hbranch, hres]
    exact ⟨_, rfl⟩

/-- Closed instantiation of C3: residues [0, 2] with peptide start 3 select
token positions [3, 5] regardless of the uncertainty, and a missing peptide
start errors. -/
theorem C3_fixed_residue_list_witness :
    cfg_fixed.select_positions_to_mask (fun _ => 0) [0, 1] (some 3) =
      .ok (([0, 2] : List ℤ).map (fun i => (3 : ℤ) + i)) ∧
    cfg_fixed.select_positions_to_mask (fun _ => 7) [4, 5, 6] (some 3) =
      cfg_fixed.select_positions_to_mask (fun _ => 0) [0, 1] (some 3) ∧
    ∃ msg, cfg_fixed.select_positions_to_mask (fun _ => 0) [0, 1] none = .error msg :=
  C3_fixed_residue_list cfg_fixed (fun _ => 0) (fun _ => 7) [0, 1] [4, 5, 6] 3 [0, 2]
    (by decide) rfl

/-- Every position returned by the shared uncertainty-based selection with a
given peptide start is at or after that start. -/
theorem select_by_uncertainty_ge (mask_strategy : String)
    (mask_ratio uncertainty_threshold : ℚ) (u : ℤ → ℚ) (mi : List ℤ) (p : ℤ)
    (res : List ℤ)
    (h : select_by_uncertainty mask_strategy mask_ratio uncertainty_threshold
      u mi (some p) = .ok res) :
    ∀ q ∈ res, p ≤ q := by
  set pm := mi.filter (fun idx => p ≤ idx) with hpmdef
  have hpm : ∀ q ∈ pm, p ≤ q := by
    intro q hq
    rw [hpmdef] at hq
    have hd := List.of_mem_filter hq
    exact of_decide_eq_true hd
  have hdef : select_by_uncertainty mask_strategy mask_ratio uncertainty_threshold
      u mi (some p) =
      (if pm = [] then .ok [] else
       if mask_strategy = "top_k" then
         .ok ((topk_idx (pm.map u)
             ((min (max 1 (pyInt ((pm.length : ℚ) * mask_ratio))) (pm.length : ℤ)).toNat)).map
           (fun i => pm.getD i 0))
       else if mask_strategy = "threshold" then
         .ok (pm.filter (fun idx => uncertainty_threshold < u idx))
       else if mask_strategy = "entropy" then .ok [pm.getD 0 0]
       else .error "Unknown mask_strategy") := rfl
  rw [hdef] at h
  by_cases hemp : pm = []
  · rw [if_pos hemp] at h
    injection h with h
    subst h
    intro q hq
    cases hq
  · rw [if_neg hemp] at h
    by_cases h1 : mask_strategy = "top_k"
    · rw [if_pos h1] at h
      injection h with h
      subst h
      intro q hq
      rcases List.mem_map.mp hq with ⟨i, hi, rfl⟩
      have hlt : i < (pm.map u).length := topk_idx_mem_lt _ _ i hi
      rw [List.length_map] at hlt
      rw [List.getD_eq_getElem pm 0 hlt]
      exact hpm _ (List.getElem_mem hlt)
    · rw [if_neg h1] at h
      by_cases h2 : mask_strategy = "threshold"
      · rw [if_pos h2] at h
        injection h with h
        subst h
        intro q hq
        exact hpm q (List.mem_of_mem_filter hq)
      · rw [if_neg h2] at h
        by_cases h3 : mask_strategy = "entropy"
        · rw [if_pos h3] at h
          injection h with h
          subst h
          intro q hq
          rcases List.mem_cons.mp hq with rfl | hq2
          · have hlt : 0 < pm.length := List.length_pos.mpr hemp
            rw [List.getD_eq_getElem pm 0 hlt]
            exact hpm _ (List.getElem_mem hlt)
          · cases hq2
        · rw [if_neg h3] at h
          cases h

/-- C9: whenever peptide_start_idx is a concrete integer and every entry of a
set residues_to_mutate is nonnegative, every position returned by
select_positions_to_mask (in either source file, under any strategy and any
inputs, including the CDR branch whose hardcoded residue indices are
naturals) is at or after peptide_start_idx: no token position of the target
sequence before the separator is ever selected. -/
theorem C9_peptide_only_masking (c : UncertaintyGuidedMutation)
    (mask_strategy : String) (mask_ratio uncertainty_threshold : ℚ)
    (u : ℤ → ℚ) (mi : List ℤ) (p : ℤ)
    (hresnn : ∀ rs, c.residues_to_mutate = some rs → ∀ r ∈ rs, 0 ≤ r) :
    (∀ res, c.select_positions_to_mask u mi (some p) = .ok res → ∀ q ∈ res, p ≤ q) ∧
    (∀ res, select_by_uncertainty mask_strategy mask_ratio uncertainty_threshold
      u mi (some p) = .ok res → ∀ q ∈ res, p ≤ q) := by
  constructor
  · intro res h q hq
    have hdef : c.select_positions_to_mask u mi (some p) =
        if c.nanobody_cdr_regions ≠ none ∧ c.modality = "nanobody" then
          (match c.get_nanobody_cdr_residues with
           | .error e => .error e
           | .ok cdr_residues =>
             .ok (convert_residue_indices_to_token_indices
               (cdr_residues.map (fun (r : ℕ) => (r : ℤ))) p))
        else
          (match c.residues_to_mutate with
           | some rs => .ok (convert_residue_indices_to_token_indices rs p)
           | none =>
             select_by_uncertainty c.mask_strategy c.mask_ratio c.uncertainty_threshold
               u mi (some p)) := rfl
    rw [hdef] at h
    by_cases hb : c.nanobody_cdr_regions ≠ none ∧ c.modality = "nanobody"
    · rw [if_pos hb] at h
      cases hcdr : c.get_nanobody_cdr_residues with
      | error e =>
        rw [hcdr] at h
        exact Except.noConfusion h
      | ok cdrs =>
        rw [hcdr] at h
        have h2 : (Except.ok (convert_residue_indices_to_token_indices
            (cdrs.map (fun (r : ℕ) => (r : ℤ))) p) : Except String (List ℤ)) = .ok res := h
        injection h2 with h2
        subst h2
        unfold convert_residue_indices_to_token_indices at hq
        rcases List.mem_map.mp hq with ⟨r, hr, rfl⟩
        rcases List.mem_map.mp hr with ⟨m, _, rfl⟩
        have hm : (0 : ℤ) ≤ (m : ℤ) := Int.natCast_nonneg m
        omega
    · rw [if_neg hb] at h
      cases hrm : c.residues_to_mutate with
      | some rs =>
        rw [hrm] at h
        have h2 : Except.ok (ε := String)
            (convert_residue_indices_to_token_indices rs p) = .ok res := h
        injection h2 with h2
        subst h2
        unfold convert_residue_indices_to_token_indices at hq
        rcases List.mem_map.mp hq with ⟨r, hr, rfl⟩
        have := hresnn rs hrm r hr
        omega
      | none =>
        rw [hrm] at h
        exact select_by_uncertainty_ge _ _ _ _ _ _ _ h q hq
  · intro res h
    exact select_by_uncertainty_ge _ _ _ _ _ _ _ h

/-- Closed instantiation of C9: with peptide start 2, the entropy selection
on five token indices returns the single position 2, which is at or after 2. -/
theorem C9_peptide_only_masking_witness :
    cfg_entropy.select_positions_to_mask (fun _ => 0) [0, 1, 2, 3, 4] (some 2) =
      .ok [2] ∧ (2 : ℤ) ≤ 2 :=
  ⟨rfl,
    (C9_peptide_only_masking cfg_entropy "entropy" (3/10) (1/2) (fun _ => 0) [0, 1, 2, 3, 4] 2
      (by intro rs h; cases h)).1 [2] rfl 2 (by decide)⟩

/-- The replacement loop of create_masked_sequence keeps the length of the
token id list. -/
theorem create_masked_sequence_length (m : ℤ) (ps : List ℤ) :
    ∀ input_ids : List ℤ,
      (create_masked_sequence input_ids m ps).length = input_ids.length := by
  induction ps with
  | nil => intro ids; rfl
  | cons q rest ih =>
    intro ids
    unfold create_masked_sequence
    rw [List.foldl_cons]
    have h1 := ih (ids.set q.toNat m)
    unfold create_masked_sequence at h1
    rw [h1, List.length_set]

/-- The replacement loop of create_masked_sequence leaves every position not
hit by any listed position unchanged. -/
theorem create_masked_sequence_frame (m : ℤ) (ps : List ℤ) (j : ℕ) :
    ∀ input_ids : List ℤ, (∀ q ∈ ps, q.toNat ≠ j) →
      (create_masked_sequence input_ids m ps).getD j 0 = input_ids.getD j 0 := by
  induction ps with
  | nil => intro ids _; rfl
  | cons q rest ih =>
    intro ids h
    unfold create_masked_sequence
    rw [List.foldl_cons]
    have h1 := ih (ids.set q.toNat m) (fun x hx => h x (List.mem_cons_of_mem _ hx))
    unfold create_masked_sequence at h1
    rw [h1, List.getD_eq_getElem?_getD, List.getD_eq_getElem?_getD,
      List.getElem?_set_ne (h q (List.mem_cons_self _ _))]

/-- The replacement loop of create_masked_sequence writes the mask token id at
every listed nonnegative in-range position. -/
theorem create_masked_sequence_mask (m : ℤ) (ps : List ℤ) (pos : ℤ) :
    ∀ input_ids : List ℤ, (∀ q ∈ ps, 0 ≤ q) → pos ∈ ps →
      pos.toNat < input_ids.length →
      (create_masked_sequence input_ids m ps).getD pos.toNat 0 = m := by
  induction ps with
  | nil => intro ids _ hmem _; cases hmem
  | cons q rest ih =>
    intro ids hnn hmem hlt
    unfold create_masked_sequence
    rw [List.foldl_cons]
    by_cases hin : pos ∈ rest
    · have h1 := ih (ids.set q.toNat m)
        (fun x hx => hnn x (List.mem_cons_of_mem _ hx)) hin
        (by rw [List.length_set]; exact hlt)
      unfold create_masked_sequence at h1
      exact h1
    · have hpq : pos = q := by
        rcases List.mem_cons.mp hmem with h | h
        · exact h
        · exact absurd h hin
      subst hpq
      have hne : ∀ x ∈ rest, x.toNat ≠ pos.toNat := by
        intro x hx heq
        have hx0 : 0 ≤ x := hnn x (List.mem_cons_of_mem _ hx)
        have hp0 : 0 ≤ pos := hnn pos (List.mem_cons_self _ _)
        have : x = pos := by omega
        exact hin (this ▸ hx)
      have hframe := create_masked_sequence_frame m rest pos.toNat
        (ids.set pos.toNat m) hne
      unfold create_masked_sequence at hframe
      rw [hframe, List.getD_eq_getElem?_getD, List.getElem?_set_self hlt]
      rfl

/-- C10: over the token id list, after the replacement loop of
create_masked_sequence every (nonnegative) in-range position listed in
positions_to_mask holds the mask token id, every position not listed holds
the same token id as the original list, and the length is unchanged. -/
theorem C10_masking_frame (input_ids : List ℤ) (mask_token_id : ℤ) (ps : List ℤ)
    (hnn : ∀ q ∈ ps, 0 ≤ q) :
    (create_masked_sequence input_ids mask_token_id ps).length = input_ids.length ∧
    (∀ q ∈ ps, q.toNat < input_ids.length →
      (create_masked_sequence input_ids mask_token_id ps).getD q.toNat 0 = mask_token_id) ∧
    (∀ j : ℕ, (j : ℤ) ∉ ps →
      (create_masked_sequence input_ids mask_token_id ps).getD j 0 =
        input_ids.getD j 0) := by
  refine ⟨create_masked_sequence_length mask_token_id ps input_ids, ?_, ?_⟩
  · intro q hq hlt
    exact create_masked_sequence_mask mask_token_id ps q input_ids hnn hq hlt
  · intro j hj
    apply create_masked_sequence_frame mask_token_id ps j input_ids
    intro q hq heq
    have hq0 : 0 ≤ q := hnn q hq
    have : q = (j : ℤ) := by omega
    exact hj (this ▸ hq)

/-- Closed instantiation of C10: masking positions 0 and 2 of a three-token
list writes the mask id there, keeps position 1, and keeps the length. -/
theorem C10_masking_frame_witness :
    (create_masked_sequence [10, 11, 12] 99 [0, 2]).length =
      ([10, 11, 12] : List ℤ).length ∧
    (∀ q ∈ ([0, 2] : List ℤ), q.toNat < ([10, 11, 12] : List ℤ).length →
      (create_masked_sequence [10, 11, 12] 99 [0, 2]).getD q.toNat 0 = 99) ∧
    (∀ j : ℕ, (j : ℤ) ∉ ([0, 2] : List ℤ) →
      (create_masked_sequence [10, 11, 12] 99 [0, 2]).getD j 0 =
        ([10, 11, 12] : List ℤ).getD j 0) :=
  C10_masking_frame [10, 11, 12] 99 [0, 2] (by decide)

/-- The generation loop records, at every masked position, the logits row of
the single forward pass on the masked input: the recorded rows do not depend
on the sampling function at all. -/
theorem generate_one_sequence_logits (model : List ℤ → ℕ → List ℚ)
    (input_ids : List ℤ) (mask_positions : List ℕ) (sample : ℕ → List ℚ → ℤ) :
    (generate_one_sequence model input_ids mask_positions sample).2 =
      mask_positions.map (model input_ids) := by
  have key : ∀ (logits : ℕ → List ℚ) (ps : List ℕ) (ids : List ℤ) (L : List (List ℚ)),
      (ps.foldl
        (fun acc pos => (acc.1.set pos (sample pos (logits pos)), acc.2 ++ [logits pos]))
        (ids, L)).2 = L ++ ps.map logits := by
    intro logits ps
    induction ps with
    | nil => intro ids L; simp
    | cons pos rest ih =>
      intro ids L
      rw [List.foldl_cons, ih]
      simp
  have h := key (model input_ids) mask_positions input_ids []
  simpa [generate_one_sequence] using h

/-- C4 (amended): in the per-sequence loop of generate_mutations, the logits
(hence the softmax distribution) used at each masked position come from the
single model forward pass on the masked input computed before the loop; they
are identical for any two sampling behaviours, so the token sampled at a
later masked position is never conditioned on tokens sampled at earlier
masked positions of the same sequence: the re-sampling is one-shot parallel,
not autoregressive. -/
theorem C4_parallel_resampling (model : List ℤ → ℕ → List ℚ) (input_ids : List ℤ)
    (mask_positions : List ℕ) (s t : ℕ → List ℚ → ℤ) :
    (generate_one_sequence model input_ids mask_positions s).2 =
      mask_positions.map (model input_ids) ∧
    (generate_one_sequence model input_ids mask_positions s).2 =
      (generate_one_sequence model input_ids mask_positions t).2 := by
  constructor
  · exact generate_one_sequence_logits model input_ids mask_positions s
  · rw [generate_one_sequence_logits model input_ids mask_positions s,
      generate_one_sequence_logits model input_ids mask_positions t]

/-- C4 (counterexample): at a concrete ids-sensitive model, a two-token input
with both positions masked and two samplers that draw different tokens at the
first masked position, the code draws visibly different earlier tokens, yet
the logits it uses at the later masked position are identical, while the
autoregressive reference implementation modelled from the spec produces
different logits there.  So the claim that the logits used for a later masked
position depend on the samples drawn at earlier masked positions is false of
generate_mutations. -/
theorem C4_autoregressive_counterexample :
    ((generate_one_sequence toy_model [0, 0] [0, 1] (fun _ _ => 1)).1.getD 0 0 = 1 ∧
     (generate_one_sequence toy_model [0, 0] [0, 1] (fun _ _ => 2)).1.getD 0 0 = 2) ∧
    (generate_one_sequence toy_model [0, 0] [0, 1] (fun _ _ => 1)).2 =
      (generate_one_sequence toy_model [0, 0] [0, 1] (fun _ _ => 2)).2 ∧
    (generate_one_sequence_autoregressive toy_model [0, 0] [0, 1] (fun _ _ => 1)).2 ≠
      (generate_one_sequence_autoregressive toy_model [0, 0] [0, 1] (fun _ _ => 2)).2 := by
  refine ⟨⟨rfl, rfl⟩, ?_, ?_⟩ <;> decide

end LlmBioInf
